import Mathlib

/-!
Shallow embedding of the AI-Powered-Multi-Camera-Face-Tracker core
(src/core/telegram_manager.py, src/core/face_detection.py,
src/core/camera_manager.py, src/core/alert_system.py,
src/core/database.py, src/ui/main_window.py), with theorems checking the
natural-language specification against the code.

Timestamps (Python `time.time()` floats) are modelled as integers (whole
seconds); the claims under scrutiny only ever compare and subtract them.
-/

namespace FaceTracker

/-! ## Telegram manager (src/core/telegram_manager.py)

`TelegramManager.send_alert` wraps an async `_send` coroutine:
the rate-limit check `now - self.last_sent < self.min_interval` skips the
attempt; otherwise the remote send is attempted, `self.last_sent = now` is
assigned only after a successful send, and a `TelegramError` raised by the
send is caught *inside* `_send` and merely logged.  The outer
`try/except Exception` around `run_until_complete(_send())` — the only
place that writes the local fallback (`failed_alerts.log` plus relocating
the screenshot to `failed_alert_images`) — therefore fires only when the
event-loop machinery itself raises, not on a `TelegramError`. -/

structure TelegramManager where
  last_sent : ℤ
  min_interval : ℤ
deriving DecidableEq, Repr

/-- Outcome of the remote `send_photo`/`send_message` call, were it reached:
it either succeeds or raises `TelegramError`. -/
inductive SendOutcome where
  | success
  | transportError
deriving DecidableEq, Repr

/-- Observable result of one `send_alert` call: whether the remote send was
attempted, the rate-limit state afterwards, the message text appended to
`failed_alerts.log` (if any), and whether the screenshot was relocated to
the `failed_alert_images` fallback directory. -/
structure SendResult where
  attempted : Bool
  state : TelegramManager
  fallbackMessage : Option String
  imageMoved : Bool
deriving DecidableEq, Repr

/-- `TelegramManager.send_alert`.  `loopFails` models
`loop.run_until_complete(_send())` raising an exception other than the
transport's `TelegramError` (which never escapes `_send`); in that case the
`except Exception` branch appends the message to `failed_alerts.log` and,
when an image path was passed, moves the screenshot to the fallback
directory.  When the loop runs `_send` normally, the rate-limit gate is
checked first; a skipped attempt changes nothing, a successful send sets
`last_sent := now`, and a `TelegramError` is caught and logged with no
state change and no fallback. -/
def send_alert (tm : TelegramManager) (now : ℤ) (message : String)
    (hasImage : Bool) (loopFails : Bool) (o : SendOutcome) : SendResult :=
  if loopFails then
    { attempted := false, state := tm, fallbackMessage := some message,
      imageMoved := hasImage }
  else if now - tm.last_sent < tm.min_interval then
    { attempted := false, state := tm, fallbackMessage := none,
      imageMoved := false }
  else
    match o with
    | .success =>
        { attempted := true, state := { tm with last_sent := now },
          fallbackMessage := none, imageMoved := false }
    | .transportError =>
        { attempted := true, state := tm, fallbackMessage := none,
          imageMoved := false }

/-- A sequence of `send_alert` calls (normal loop, successful transport) at
the given times, returning the final rate-limit state and the number of
delivery attempts made. -/
def sendSeq (tm : TelegramManager) (times : List ℤ) : TelegramManager × ℕ :=
  times.foldl
    (fun acc t =>
      let r := send_alert acc.1 t "m" false false .success
      (r.state, acc.2 + (if r.attempted then 1 else 0)))
    (tm, 0)

end FaceTracker

namespace FaceTracker

/-! ## Camera manager (src/core/camera_manager.py)

`CameraManager` holds `cameras` (configs keyed by id), `capture_threads`
(dict id ↦ thread), one manager-wide `threading.Event` named `stop_event`
shared by *all* capture threads, and `frame_queues` (dict id ↦
`queue.Queue(maxsize=1)`).  Each capture thread loops
`while not self.stop_event.is_set()`.  Teardown
(`_cleanup_camera_thread`) sets this shared event, pops the thread, joins
it with a 2-second timeout (logging a warning and proceeding if it is
still alive), drains and deletes the frame queue.  `start_camera` tears
down an existing thread first, then installs a fresh queue, **clears the
shared stop event**, and spawns a new thread.

Threads are modelled explicitly: a spawned thread is `running` until it
polls the stop event while the event is set (then it becomes `exited`).
The boolean `oldThreadExits` passed to teardown is the scheduling choice
of whether the old thread performs such a poll inside the 2-second join
window (the event is set throughout that window, so polling there exits);
`oldThreadExits = false` is the wedged-in-`cap.read()` schedule in which
the join times out. -/

structure CameraConfig where
  id : ℕ
  name : String
  source : String
  enabled : Bool
  width : ℕ
  height : ℕ
  fps : ℕ
  rotate : ℕ
deriving DecidableEq, Repr

/-- Opaque frame data. -/
def Frame : Type := ℕ
deriving instance DecidableEq, Repr for Frame

inductive ThreadStatus where
  | running
  | exited
deriving DecidableEq, Repr, BEq

/-- One OS capture thread: its identity, the camera it captures for, and
whether its loop is still running. -/
structure CaptureThread where
  tid : ℕ
  cam : ℕ
  status : ThreadStatus
deriving DecidableEq, Repr

/-- Association-list lookup, modelling Python `dict` access keyed by
camera id. -/
def alookup {α : Type} : List (ℕ × α) → ℕ → Option α
  | [], _ => none
  | p :: rest, k => if p.1 = k then some p.2 else alookup rest k

/-- `del d[k]` on a dict modelled as an association list. -/
def assocErase {α : Type} (l : List (ℕ × α)) (k : ℕ) : List (ℕ × α) :=
  l.filter (fun p => p.1 != k)

/-- `d[k] = v` on a dict modelled as an association list. -/
def assocSet {α : Type} (l : List (ℕ × α)) (k : ℕ) (v : α) : List (ℕ × α) :=
  (k, v) :: assocErase l k

structure CameraManager where
  cameras : List CameraConfig
  capture_threads : List (ℕ × ℕ)
  stop_event : Bool
  frame_queues : List (ℕ × Option Frame)
  threads : List CaptureThread
  next_tid : ℕ
deriving DecidableEq, Repr

/-- `CameraManager.__init__` after `load_config`: configs loaded, no
threads, shared stop event unset, no frame queues. -/
def initManager (cfgs : List CameraConfig) : CameraManager :=
  { cameras := cfgs, capture_threads := [], stop_event := false,
    frame_queues := [], threads := [], next_tid := 0 }

/-- Mark the thread `tid` as exited (it left its capture loop). -/
def setThreadExited (threads : List CaptureThread) (tid : ℕ) : List CaptureThread :=
  threads.map (fun t => if t.tid = tid then { t with status := .exited } else t)

/-- One poll of `self.stop_event.is_set()` by thread `tid` at the top of
its capture loop: if the shared event is set the loop exits, otherwise
the thread keeps running. -/
def threadPoll (m : CameraManager) (tid : ℕ) : CameraManager :=
  if m.stop_event then { m with threads := setThreadExited m.threads tid } else m

/-- `CameraManager._cleanup_camera_thread`: if `cam` has a registered
thread, set the **shared** stop event, pop the thread entry, join with a
2-second timeout (`oldThreadExits` says whether the old thread polled the
set event inside that window and exited; otherwise a warning is logged
and the manager proceeds with the thread still running), then drain and
delete the frame queue. -/
def cleanup_camera_thread (m : CameraManager) (cam : ℕ) (oldThreadExits : Bool) :
    CameraManager :=
  match alookup m.capture_threads cam with
  | none => m
  | some tid =>
      { m with
        stop_event := true,
        capture_threads := assocErase m.capture_threads cam,
        threads := if oldThreadExits then setThreadExited m.threads tid else m.threads,
        frame_queues := assocErase m.frame_queues cam }

/-- `CameraManager.start_camera`: unknown or disabled ids fail with
`False`; an existing thread is cleaned up first; then a fresh
`Queue(maxsize=1)` is installed, the shared stop event is **cleared**,
and a new capture thread is spawned and registered. -/
def start_camera (m : CameraManager) (cam : ℕ) (oldThreadExits : Bool) :
    CameraManager × Bool :=
  match m.cameras.find? (fun c => c.id == cam) with
  | none => (m, false)
  | some cfg =>
      if cfg.enabled then
        let m1 := if (alookup m.capture_threads cam).isSome then
            cleanup_camera_thread m cam oldThreadExits
          else m
        ({ m1 with
            frame_queues := assocSet m1.frame_queues cam none,
            stop_event := false,
            capture_threads := assocSet m1.capture_threads cam m1.next_tid,
            threads := m1.threads ++ [⟨m1.next_tid, cam, .running⟩],
            next_tid := m1.next_tid + 1 }, true)
      else (m, false)

/-- `CameraManager.stop_camera`: tears down the camera's thread if it has
one, else returns `False`. -/
def stop_camera (m : CameraManager) (cam : ℕ) (oldThreadExits : Bool) :
    CameraManager × Bool :=
  if (alookup m.capture_threads cam).isSome then
    (cleanup_camera_thread m cam oldThreadExits, true)
  else (m, false)

/-- Whether a capture loop is still running. -/
def ThreadStatus.isRunning : ThreadStatus → Bool
  | .running => true
  | .exited => false

/-- Number of capture threads for camera `cam` whose loops are still
running. -/
def runningFor (m : CameraManager) (cam : ℕ) : ℕ :=
  (m.threads.filter (fun t => t.cam == cam && t.status.isRunning)).length
end FaceTracker


namespace FaceTracker

/-! ## Faces and the known-face gallery (src/core/face_detection.py)

`Face` carries the detector output (`face_img`/`kps` are opaque images and
keypoints, not modelled); `embedding` is `None` or a float vector.
`KnownFace` is one gallery entry.  Vector components are modelled as real
numbers. -/

structure Face where
  bbox : List ℝ
  det_score : ℝ
  embedding : Option (List ℝ)
  age : Option ℤ
  gender : Option String

structure KnownFace where
  name : String
  embedding : List ℝ
  image_path : String

/-- One file of the known-faces directory as `load_known_faces` sees it:
its stem and suffix, its full path, whether `cv2.imread` succeeds, and the
embeddings of the faces `self.model.get` finds in it. -/
structure FaceFile where
  stem : String
  suffix : String
  path : String
  img_ok : Bool
  found : List (List ℝ)

/-- `FaceDetector.load_known_faces`: clear the gallery, then for each file
whose lower-cased suffix is `.jpg`/`.jpeg`/`.png`, which is readable and
in which the detector finds at least one face, append a `KnownFace` named
by the file's **stem** with the first found face's embedding. -/
def load_known_faces : List FaceFile → List KnownFace
  | [] => []
  | file :: rest =>
      if file.suffix.toLower ∈ [".jpg", ".jpeg", ".png"] ∧ file.img_ok = true then
        match file.found with
        | [] => load_known_faces rest
        | e :: _ => ⟨file.stem, e, file.path⟩ :: load_known_faces rest
      else load_known_faces rest

/-- `FaceDetector.add_known_face`: if the detector finds no face in the
provided image, return `False`; otherwise save the image under
`{name}_{timestamp}.jpg` and append a `KnownFace` with the first detected
face's embedding — with **no** check against existing entry names.
(`detected` is the `detect_faces` output on the image; a detected face's
embedding is never `None` in practice, modelled by `Option.getD`.) -/
def add_known_face (known_faces : List KnownFace) (detected : List Face)
    (name : String) (save_dir : String) (timestamp : ℤ) : List KnownFace × Bool :=
  match detected with
  | [] => (known_faces, false)
  | face :: _ =>
      (known_faces ++
        [⟨name, face.embedding.getD [],
          save_dir ++ "/" ++ name ++ "_" ++ toString timestamp ++ ".jpg"⟩], true)

/-! ## Alert system (src/core/alert_system.py) -/

structure AlertEvent where
  camera_id : ℕ
  camera_name : String
  face_name : String
  confidence : ℝ
  timestamp : ℤ
  age : Option ℤ
  gender : Option String
  screenshot_path : Option String

structure AlertSystem where
  alert_sound : String
  screenshot_dir : String
  alert_history : List AlertEvent
  alert_enabled : Bool
  screenshot_enabled : Bool
  telegram : Option TelegramManager

/-- `AlertSystem._capture_screenshot`: build the deterministic path
`{screenshot_dir}/{timestamp_str}_cam{camera_id}_{face_name}.jpg` (the
strftime rendering of the timestamp is the caller-supplied `tsStr`) and
write the frame there; `writeOk` models `cv2.imwrite` succeeding — on a
failed or raising write the function logs and returns `None`. -/
def capture_screenshot (screenshot_dir : String) (camera_id : ℕ)
    (face_name : String) (tsStr : String) (writeOk : Bool) : Option String :=
  if writeOk then
    some (screenshot_dir ++ "/" ++ tsStr ++ "_cam" ++ toString camera_id
      ++ "_" ++ face_name ++ ".jpg")
  else none

/-- Python truthiness of an optional int (`if event.age:`): `None` and `0`
are falsy. -/
def pyTruthyInt : Option ℤ → Bool
  | none => false
  | some a => a != 0

/-- Python truthiness of an optional string (`if event.gender:`): `None`
and the empty string are falsy. -/
def pyTruthyStr : Option String → Bool
  | none => false
  | some s => s != ""

/-- The Telegram message assembled by `trigger_alert` (the rendered
confidence percentage and wall-clock time strings are parameters, as their
formatting is host-environment output). -/
def alertMessage (face_name : String) (age : Option ℤ) (gender : Option String)
    (camera_name confStr timeStr : String) : String :=
  String.intercalate "\n"
    (["🚨 Face detected!", "👤 Name: " ++ face_name]
      ++ (if pyTruthyInt age then ["👶 Age: ~" ++ toString (age.getD 0) ++ " years"] else [])
      ++ (if pyTruthyStr gender then ["🚻 Gender: " ++ gender.getD ""] else [])
      ++ ["📷 Camera: " ++ camera_name, "🎯 Confidence: " ++ confStr,
          "⏰ Time: " ++ timeStr])

/-- `AlertSystem.trigger_alert`: take the timestamp; if screenshots are
enabled, attempt the screenshot (a failed write degrades to `None`);
create the `AlertEvent`; append it to the in-memory history; if audible
alerts are enabled attempt the sound (all failures caught, no state
change); if a Telegram manager is configured, build the message and call
`send_alert` with the screenshot path.  Returns the new state and the
event. -/
def trigger_alert (st : AlertSystem) (camera_id : ℕ)
    (camera_name face_name : String) (face : Face) (confidence : ℝ)
    (now : ℤ) (tsStr confStr timeStr : String) (writeOk : Bool)
    (loopFails : Bool) (o : SendOutcome) : AlertSystem × AlertEvent :=
  let screenshot_path : Option String :=
    if st.screenshot_enabled then
      capture_screenshot st.screenshot_dir camera_id face_name tsStr writeOk
    else none
  let event : AlertEvent :=
    { camera_id := camera_id, camera_name := camera_name,
      face_name := face_name, confidence := confidence, timestamp := now,
      age := face.age, gender := face.gender,
      screenshot_path := screenshot_path }
  let st1 := { st with alert_history := st.alert_history ++ [event] }
  let st2 :=
    match st1.telegram with
    | none => st1
    | some tm =>
        let msg := alertMessage face_name face.age face.gender camera_name
          confStr timeStr
        { st1 with
          telegram := some (send_alert tm now msg screenshot_path.isSome
            loopFails o).state }
  (st2, event)

/-! ## Persistent log store (src/core/database.py)

`FaceDatabase.log_face_event` binds the row
`(timestamp, camera_id, camera_name, face_name, age, gender, confidence,
screenshot_path)` where `age` is `int(event.age) if event.age else None`
(Python truthiness: both `None` and `0` become SQL `NULL`), `gender` is
`str(event.gender) if event.gender else None` (`None` and `""` become
`NULL`), and likewise for `screenshot_path`. -/

/-- The tuple of values `log_face_event` inserts into `face_logs`. -/
def log_face_event_row (e : AlertEvent) :
    ℤ × ℕ × String × String × Option ℤ × Option String × ℝ × Option String :=
  (e.timestamp, e.camera_id, e.camera_name, e.face_name,
    (match e.age with
      | some a => if a = 0 then none else some a
      | none => none),
    (match e.gender with
      | some g => if g = "" then none else some g
      | none => none),
    e.confidence,
    (match e.screenshot_path with
      | some p => if p = "" then none else some p
      | none => none))

/-! ## Pipeline driver (src/ui/main_window.py, `MainWindow.update`)

Per tick: for each camera with an available frame, compare the tick time
against the per-camera `last_processed` entry (`.get(cam_id, 0)`); frames
inside the minimum processing interval are displayed without detection,
others are processed (detection and recognition) and displayed, and only
then is `last_processed[cam_id]` set to the current time.  (The code
samples `time.time()` once per loop iteration; the tick is modelled with
a single timestamp `now`.) -/

structure MainWindow where
  last_processed : List (ℕ × ℤ)
  processing_interval : ℤ

/-- One `MainWindow.update` tick over the cameras that delivered a frame
(`frames` are their ids, in iteration order).  Returns the new state, the
ids that were run through detection, and the ids that were displayed. -/
def updateTick : MainWindow → ℤ → List ℕ → MainWindow × List ℕ × List ℕ
  | st, _, [] => (st, [], [])
  | st, now, cam :: rest =>
      let last := (alookup st.last_processed cam).getD 0
      if now - last < st.processing_interval then
        let r := updateTick st now rest
        (r.1, r.2.1, cam :: r.2.2)
      else
        let r := updateTick
          { st with last_processed := assocSet st.last_processed cam now }
          now rest
        (r.1, cam :: r.2.1, cam :: r.2.2)

end FaceTracker

namespace FaceTracker

/-! ## Recognition matcher (src/core/face_detection.py, `recognize_faces`)

`recognize_faces` guards `face.embedding is None or len(face.embedding) == 0`
with `(face, None, 0.0)`; otherwise it computes
`np.dot(known_embeddings, face.embedding) /
 (np.linalg.norm(known_embeddings, axis=1) * np.linalg.norm(face.embedding))`,
takes `np.argmax`, and accepts iff `max_similarity > self.recognition_threshold`
(strictly), else returns `(face, None, max_similarity)`.

Float arithmetic is modelled over ℝ, except that IEEE division by zero is
made explicit: whenever a similarity's denominator `‖g‖·‖f‖` is zero the
numerator `g·f` is zero as well (a zero norm forces the zero vector), so
numpy yields `0.0/0.0 = NaN` — modelled as `none : Option ℝ`.  numpy
neither raises nor returns a number there.  `np.argmax` scans left to
right replacing the current best when the new value compares strictly
greater or when the new value is NaN and the current best is not (NaN is
maximal for `argmax`, first NaN winning); a float comparison with NaN on
either side is false. -/

/-- `np.dot` of two 1-D float arrays (the claims are used in the regime
where lengths agree; numpy raises on a mismatch, which is outside the
guarded paths modelled here). -/
def dot (a b : List ℝ) : ℝ := (List.zipWith (fun x y => x * y) a b).sum

/-- `np.linalg.norm` of a 1-D float array. -/
noncomputable def norm2 (a : List ℝ) : ℝ := Real.sqrt (dot a a)

open Classical in
/-- One entry of the `similarities` array: `NaN` (= `none`) exactly when
the denominator is zero, else the real quotient. -/
noncomputable def cosSim (a b : List ℝ) : Option ℝ :=
  if norm2 a * norm2 b = 0 then none
  else some (dot a b / (norm2 a * norm2 b))

/-- The real value of a similarity whose denominator is nonzero. -/
noncomputable def cosVal (a b : List ℝ) : ℝ := dot a b / (norm2 a * norm2 b)

/-- numpy argmax's replacement test: the new value strictly exceeds the
current best, or the new value is NaN and the current best is not. -/
def npUpdate : Option ℝ → Option ℝ → Prop
  | some a, some b => b < a
  | none, some _ => True
  | _, none => False

open Classical in
/-- The scan underlying `np.argmax`: `best` is the index of the current
best value `bv`, `i` the index of the head of the remaining list. -/
noncomputable def npArgmaxAux : List (Option ℝ) → ℕ → ℕ → Option ℝ → ℕ
  | [], best, _, _ => best
  | v :: rest, best, i, bv =>
      if npUpdate v bv then npArgmaxAux rest i (i + 1) v
      else npArgmaxAux rest best (i + 1) bv

/-- `np.argmax` over the (nonempty, in all uses) similarities array. -/
noncomputable def npArgmax (l : List (Option ℝ)) : ℕ :=
  npArgmaxAux l.tail 0 1 (l.headD none)

/-- The float comparison `max_similarity > threshold`: false when the
left side is NaN. -/
def npGT (s : Option ℝ) (t : ℝ) : Prop :=
  match s with
  | some a => t < a
  | none => False

/-- Default for `self.known_faces[max_idx]` (the index is always in
bounds in the code path; the default is never taken in the theorems). -/
def dfltKnown : KnownFace := ⟨"", [], ""⟩

open Classical in
/-- `FaceDetector.recognize_faces` restricted to one detected face (the
body of its `for face in faces` loop, reached when the gallery is
nonempty). -/
noncomputable def recognizeOne (known_faces : List KnownFace) (threshold : ℝ)
    (face : Face) : Face × Option KnownFace × Option ℝ :=
  match face.embedding with
  | none => (face, none, some 0)
  | some emb =>
      if emb.length = 0 then (face, none, some 0)
      else
        let sims := known_faces.map (fun kf => cosSim kf.embedding emb)
        let max_idx := npArgmax sims
        let max_similarity := sims.getD max_idx none
        if npGT max_similarity threshold then
          (face, some (known_faces.getD max_idx dfltKnown), max_similarity)
        else (face, none, max_similarity)

open Classical in
/-- `FaceDetector.recognize_faces`: an empty gallery short-circuits every
detection to `(face, None, 0.0)`; otherwise each face goes through the
matching loop. -/
noncomputable def recognize_faces (known_faces : List KnownFace) (threshold : ℝ)
    (faces : List Face) : List (Face × Option KnownFace × Option ℝ) :=
  if known_faces = [] then faces.map (fun f => (f, none, some 0))
  else faces.map (recognizeOne known_faces threshold)

end FaceTracker

namespace FaceTracker

theorem alookup_assocErase_ne {α : Type} (l : List (ℕ × α)) (k j : ℕ)
    (h : j ≠ k) : alookup (assocErase l k) j = alookup l j := by
  induction l with
  | nil => rfl
  | cons p rest ih =>
      by_cases hp : p.1 = k
      · have hpj : ¬ p.1 = j := by omega
        have hfil : assocErase (p :: rest) k = assocErase rest k := by
          simp [assocErase, List.filter_cons, hp]
        rw [hfil, ih]
        simp [alookup, hpj]
      · have hfil : assocErase (p :: rest) k = p :: assocErase rest k := by
          simp [assocErase, List.filter_cons, hp]
        rw [hfil]
        by_cases hj : p.1 = j
        · simp [alookup, hj]
        · simp [alookup, hj, ih]

theorem alookup_assocSet_ne {α : Type} (l : List (ℕ × α)) (k j : ℕ) (v : α)
    (h : j ≠ k) : alookup (assocSet l k v) j = alookup l j := by
  have : k ≠ j := fun hkj => h hkj.symm
  simp [assocSet, alookup, this]
  exact alookup_assocErase_ne l k j h

theorem alookup_assocSet_self {α : Type} (l : List (ℕ × α)) (k : ℕ) (v : α) :
    alookup (assocSet l k v) k = some v := by
  simp [assocSet, alookup]

end FaceTracker

namespace FaceTracker

/-- Claim C5, counterexample: camera 1 is started, started again while the
old thread is wedged past the 2-second join timeout (it performs no poll
during the join window).  `start_camera` proceeds after the timeout and
**clears** the shared stop event before the old thread ever observes it,
so afterwards two capture threads for camera 1 are running concurrently —
contradicting the claim that a restart never leaves two threads for the
same id, "including when the old thread does not exit within the
2-second join timeout". -/
theorem claim_C5_counterexample :
    runningFor
      ((start_camera
          ((start_camera (initManager [⟨1, "Lobby", "0", true, 640, 480, 30, 0⟩])
              1 false).1)
          1 false).1) 1 = 2 := by
  decide

/-- Claim C5, amended: restarting a running camera tears the old thread
down first by setting the shared stop event and joining with a 2-second
timeout.  If the old thread polls the event inside that window it exits,
and the restart leaves exactly one running thread for the id; but if the
old thread does not exit within the timeout, `start_camera` proceeds,
clears the shared stop event and spawns a new thread, so the stale thread
can keep running concurrently with the new one (two running threads). -/
theorem claim_C5_amended (cfg : CameraConfig) (h : cfg.enabled = true) :
    runningFor
      ((start_camera ((start_camera (initManager [cfg]) cfg.id true).1)
          cfg.id true).1) cfg.id = 1
    ∧ runningFor
      ((start_camera ((start_camera (initManager [cfg]) cfg.id false).1)
          cfg.id false).1) cfg.id = 2 := by
  obtain ⟨i, n, s, e, w, hh, f, r⟩ := cfg
  simp only at h
  subst h
  constructor <;>
    simp [start_camera, initManager, cleanup_camera_thread, alookup, assocSet,
      assocErase, setThreadExited, runningFor, threadPoll, List.find?,
      List.filter_cons, ThreadStatus.isRunning]

/-- Claim C5, witness for the amended claim at a concrete enabled camera
configuration. -/
theorem claim_C5_amended_witness :
    (CameraConfig.mk 1 "Lobby" "0" true 640 480 30 0).enabled = true
    ∧ (runningFor
        ((start_camera
            ((start_camera (initManager [⟨1, "Lobby", "0", true, 640, 480, 30, 0⟩])
                1 true).1) 1 true).1) 1 = 1
      ∧ runningFor
        ((start_camera
            ((start_camera (initManager [⟨1, "Lobby", "0", true, 640, 480, 30, 0⟩])
                1 false).1) 1 false).1) 1 = 2) :=
  ⟨by decide, claim_C5_amended ⟨1, "Lobby", "0", true, 640, 480, 30, 0⟩ (by decide)⟩

/-- Claim C6, counterexample: with cameras 1 and 2 both running,
`stop_camera 1` sets the **manager-wide** stop event — the very flag
camera 2's capture thread polls — so camera 2's stop signal does not
"remain unset": the next poll of camera 2's thread (thread id 1) makes it
exit its capture loop, contradicting the claim that stopping one camera
signals only that camera's private stop flag. -/
theorem claim_C6_counterexample :
    (stop_camera
        ((start_camera
            ((start_camera (initManager
                [⟨1, "A", "0", true, 640, 480, 30, 0⟩,
                 ⟨2, "B", "1", true, 640, 480, 30, 0⟩]) 1 false).1) 2 false).1)
        1 true).1.stop_event = true
    ∧ runningFor
        ((stop_camera
            ((start_camera
                ((start_camera (initManager
                    [⟨1, "A", "0", true, 640, 480, 30, 0⟩,
                     ⟨2, "B", "1", true, 640, 480, 30, 0⟩]) 1 false).1) 2 false).1)
            1 true).1) 2 = 1
    ∧ runningFor
        (threadPoll
          ((stop_camera
              ((start_camera
                  ((start_camera (initManager
                      [⟨1, "A", "0", true, 640, 480, 30, 0⟩,
                       ⟨2, "B", "1", true, 640, 480, 30, 0⟩]) 1 false).1) 2 false).1)
              1 true).1) 1) 2 = 0 := by
  refine ⟨by decide, by decide, by decide⟩

/-- Claim C6, amended: stopping one camera removes only that camera's
bookkeeping — every other camera's `capture_threads` entry and frame slot
are unchanged — but the stop signal is a single manager-wide event shared
by all capture threads: teardown sets it (so any other running camera's
thread exits its loop at its next poll), and it is cleared again on each
successful `start_camera` rather than being a fresh signal per
start/stop cycle. -/
theorem claim_C6_amended (m : CameraManager) (cam j : ℕ) (b : Bool)
    (hj : j ≠ cam) :
    alookup (stop_camera m cam b).1.capture_threads j = alookup m.capture_threads j
    ∧ alookup (stop_camera m cam b).1.frame_queues j = alookup m.frame_queues j
    ∧ ((alookup m.capture_threads cam).isSome = true →
        (stop_camera m cam b).1.stop_event = true)
    ∧ ((start_camera m cam b).2 = true → (start_camera m cam b).1.stop_event = false) := by
  refine ⟨?_, ?_, ?_, ?_⟩
  · unfold stop_camera
    by_cases hs : (alookup m.capture_threads cam).isSome
    · rw [if_pos hs]
      unfold cleanup_camera_thread
      rcases hl : alookup m.capture_threads cam with _ | tid
      · rfl
      · simpa using alookup_assocErase_ne m.capture_threads cam j hj
    · rw [if_neg hs]
  · unfold stop_camera
    by_cases hs : (alookup m.capture_threads cam).isSome
    · rw [if_pos hs]
      unfold cleanup_camera_thread
      rcases hl : alookup m.capture_threads cam with _ | tid
      · rfl
      · simpa using alookup_assocErase_ne m.frame_queues cam j hj
    · rw [if_neg hs]
  · intro hs
    unfold stop_camera
    rw [if_pos hs]
    unfold cleanup_camera_thread
    rcases hl : alookup m.capture_threads cam with _ | tid
    · rw [hl] at hs; simp at hs
    · rfl
  · intro hs
    unfold start_camera at hs ⊢
    rcases hf : m.cameras.find? (fun c => c.id == cam) with _ | cfg
    · rw [hf] at hs
      simp at hs
    · rw [hf] at hs ⊢
      by_cases he : cfg.enabled = true
      · simp [he]
      · simp [he] at hs

/-- Claim C6, witness for the amended claim: camera 2's bookkeeping is
untouched and the shared event is set when camera 1 (running) is
stopped in a concrete two-camera state. -/
theorem claim_C6_amended_witness :
    (2 : ℕ) ≠ 1
    ∧ (alookup (stop_camera ⟨[], [(1, 0), (2, 1)], false, [], [], 2⟩ 1 true).1.capture_threads 2
        = alookup ([(1, 0), (2, 1)] : List (ℕ × ℕ)) 2
      ∧ alookup (stop_camera ⟨[], [(1, 0), (2, 1)], false, [], [], 2⟩ 1 true).1.frame_queues 2
        = alookup ([] : List (ℕ × Option Frame)) 2
      ∧ ((alookup ([(1, 0), (2, 1)] : List (ℕ × ℕ)) 1).isSome = true →
          (stop_camera ⟨[], [(1, 0), (2, 1)], false, [], [], 2⟩ 1 true).1.stop_event = true)
      ∧ ((start_camera ⟨[], [(1, 0), (2, 1)], false, [], [], 2⟩ 1 true).2 = true →
          (start_camera ⟨[], [(1, 0), (2, 1)], false, [], [], 2⟩ 1 true).1.stop_event = false)) :=
  ⟨by decide, claim_C6_amended ⟨[], [(1, 0), (2, 1)], false, [], [], 2⟩ 1 2 true (by decide)⟩

end FaceTracker

namespace FaceTracker

/-- Claim C1: a delivery attempt is made iff `now - lastSent >= minInterval`
at the moment of the call; a skipped attempt leaves `lastSent` unmodified
and a successful send sets `lastSent = now`; with `minInterval = 5` and
`lastSent` at its initial value `0`, calls at session times `t0` and
`t0 + 3` make exactly one attempt and calls at `t0` and `t0 + 6` make two
(`t0` being the wall-clock value of the session's `t = 0`, which in any
real execution exceeds the 5-second interval). -/
theorem claim_C1_rate_limiting (tm : TelegramManager) (now t0 : ℤ)
    (msg : String) (img : Bool) (o : SendOutcome) (ht0 : 5 ≤ t0) :
    ((send_alert tm now msg img false o).attempted = true ↔
      tm.min_interval ≤ now - tm.last_sent)
    ∧ (now - tm.last_sent < tm.min_interval →
        (send_alert tm now msg img false o).state = tm)
    ∧ (tm.min_interval ≤ now - tm.last_sent →
        (send_alert tm now msg img false .success).state.last_sent = now)
    ∧ (sendSeq ⟨0, 5⟩ [t0, t0 + 3]).2 = 1
    ∧ (sendSeq ⟨0, 5⟩ [t0, t0 + 6]).2 = 2 := by
  refine ⟨?_, ?_, ?_, ?_, ?_⟩
  · constructor
    · intro h
      by_contra hlt
      push_neg at hlt
      simp [send_alert, if_pos hlt] at h
    · intro h
      have hlt : ¬ now - tm.last_sent < tm.min_interval := by omega
      cases o <;> simp [send_alert, if_neg hlt]
  · intro h
    simp [send_alert, if_pos h]
  · intro h
    have hlt : ¬ now - tm.last_sent < tm.min_interval := by omega
    simp [send_alert, if_neg hlt]
  · have h1 : ¬ (t0 : ℤ) < 5 := by omega
    have h2 : t0 + 3 - t0 < 5 := by omega
    simp [sendSeq, send_alert, if_neg h1, if_pos h2]
  · have h1 : ¬ (t0 : ℤ) < 5 := by omega
    have h2 : ¬ t0 + 6 - t0 < 5 := by omega
    simp [sendSeq, send_alert, if_neg h1, if_neg h2]

/-- Claim C1, witness: the theorem applied at a session starting at
wall-clock time `t0 = 6`. -/
theorem claim_C1_rate_limiting_witness :
    (5 : ℤ) ≤ 6 ∧
      ((sendSeq ⟨0, 5⟩ [6, 6 + 3]).2 = 1 ∧ (sendSeq ⟨0, 5⟩ [6, 6 + 6]).2 = 2) :=
  ⟨by decide,
    ⟨(claim_C1_rate_limiting ⟨0, 5⟩ 7 6 "m" false .success (by decide)).2.2.2.1,
      (claim_C1_rate_limiting ⟨0, 5⟩ 7 6 "m" false .success (by decide)).2.2.2.2⟩⟩

/-- Claim C2, counterexample: with the window open (`now = 100`,
`last_sent = 0`, `min_interval = 5`), a remote send that raises the
transport error (`TelegramError`) is attempted but writes **no** fallback
record and relocates no screenshot — contradicting the claim that every
transport-level failure appends the alert to the durable local fallback. -/
theorem claim_C2_counterexample :
    (send_alert ⟨0, 5⟩ 100 "alert text" true false .transportError).attempted = true
    ∧ (send_alert ⟨0, 5⟩ 100 "alert text" true false .transportError).fallbackMessage = none
    ∧ (send_alert ⟨0, 5⟩ 100 "alert text" true false .transportError).imageMoved = false := by
  refine ⟨rfl, rfl, rfl⟩

/-- Claim C2, amended: a transport error (`TelegramError`) raised by the
remote send is caught inside `_send` and only logged — no fallback record
is written — while `lastSent` is left unchanged; the durable fallback
(message appended to `failed_alerts.log`, screenshot relocated when an
image path is present) is written exactly when the failure escapes the
send wrapper as an exception other than the transport error (the outer
`except Exception` around `run_until_complete`), and `lastSent` is
unchanged then as well. -/
theorem claim_C2_amended (tm : TelegramManager) (now : ℤ) (msg : String)
    (img : Bool) (o : SendOutcome) :
    ((send_alert tm now msg img false .transportError).fallbackMessage = none
      ∧ (send_alert tm now msg img false .transportError).imageMoved = false
      ∧ (send_alert tm now msg img false .transportError).state = tm)
    ∧ ((send_alert tm now msg img true o).fallbackMessage = some msg
      ∧ (send_alert tm now msg img true o).imageMoved = img
      ∧ (send_alert tm now msg img true o).state = tm) := by
  constructor
  · by_cases h : now - tm.last_sent < tm.min_interval <;>
      simp [send_alert, h]
  · simp [send_alert]

end FaceTracker

namespace FaceTracker

/-- Claim C7: every `trigger_alert` call appends exactly one `AlertEvent`
to the in-memory history regardless of the outcome of any side channel
(screenshot write, sound, remote notification); with screenshots disabled
the event's `screenshot_path` is absent while the history still grows by
exactly one, and a failed screenshot write degrades to an absent
`screenshot_path` without aborting the alert. -/
theorem claim_C7_alert_always_recorded (st : AlertSystem) (camera_id : ℕ)
    (camera_name face_name : String) (face : Face) (confidence : ℝ)
    (now : ℤ) (tsStr confStr timeStr : String) (writeOk loopFails : Bool)
    (o : SendOutcome) :
    (trigger_alert st camera_id camera_name face_name face confidence now
        tsStr confStr timeStr writeOk loopFails o).1.alert_history
      = st.alert_history ++
        [(trigger_alert st camera_id camera_name face_name face confidence now
            tsStr confStr timeStr writeOk loopFails o).2]
    ∧ (trigger_alert st camera_id camera_name face_name face confidence now
        tsStr confStr timeStr writeOk loopFails o).1.alert_history.length
      = st.alert_history.length + 1
    ∧ (st.screenshot_enabled = false →
        (trigger_alert st camera_id camera_name face_name face confidence now
          tsStr confStr timeStr writeOk loopFails o).2.screenshot_path = none)
    ∧ (writeOk = false →
        (trigger_alert st camera_id camera_name face_name face confidence now
          tsStr confStr timeStr writeOk loopFails o).2.screenshot_path = none) := by
  refine ⟨?_, ?_, ?_, ?_⟩
  · cases htg : st.telegram <;> simp [trigger_alert, htg]
  · cases htg : st.telegram <;> simp [trigger_alert, htg]
  · intro h
    cases htg : st.telegram <;> simp [trigger_alert, htg, h]
  · intro h
    subst h
    cases htg : st.telegram <;> by_cases hs : st.screenshot_enabled <;>
      simp [trigger_alert, htg, hs, capture_screenshot]

/-- Claim C7, witness: a concrete trigger with screenshots disabled grows
an empty history to length one with an absent screenshot path. -/
theorem claim_C7_alert_always_recorded_witness :
    (trigger_alert ⟨"a.wav", "shots", [], true, false, none⟩ 1 "Lobby" "Alice"
        ⟨[], 1, none, none, none⟩ 1 10 "ts" "82" "t" false false
        .success).1.alert_history.length
      = ([] : List AlertEvent).length + 1
    ∧ (trigger_alert ⟨"a.wav", "shots", [], true, false, none⟩ 1 "Lobby" "Alice"
        ⟨[], 1, none, none, none⟩ 1 10 "ts" "82" "t" false false
        .success).2.screenshot_path = none :=
  ⟨(claim_C7_alert_always_recorded ⟨"a.wav", "shots", [], true, false, none⟩ 1
      "Lobby" "Alice" ⟨[], 1, none, none, none⟩ 1 10 "ts" "82" "t" false false
      .success).2.1,
    (claim_C7_alert_always_recorded ⟨"a.wav", "shots", [], true, false, none⟩ 1
      "Lobby" "Alice" ⟨[], 1, none, none, none⟩ 1 10 "ts" "82" "t" false false
      .success).2.2.1 rfl⟩

/-- Claim C10: when an alert event is written to the `face_logs` table, an
age of `0` (Python-falsy) is bound as `NULL` exactly like an absent age,
an empty-string gender as `NULL` exactly like an absent gender — the
stored rows are indistinguishable — while a nonzero age is stored as
itself. -/
theorem claim_C10_zero_age_null (e : AlertEvent) :
    log_face_event_row { e with age := some 0 }
      = log_face_event_row { e with age := none }
    ∧ log_face_event_row { e with gender := some "" }
      = log_face_event_row { e with gender := none }
    ∧ (∀ a : ℤ, a ≠ 0 →
        (log_face_event_row { e with age := some a }).2.2.2.2.1 = some a) := by
  refine ⟨rfl, rfl, ?_⟩
  intro a ha
  simp [log_face_event_row, ha]

/-- Claim C10, witness: the theorem applied at a concrete event. -/
theorem claim_C10_zero_age_null_witness :
    log_face_event_row
        { (⟨1, "Lobby", "Alice", 1, 10, none, some "Male", some "p.jpg"⟩ : AlertEvent)
          with age := some 0 }
      = log_face_event_row
        { (⟨1, "Lobby", "Alice", 1, 10, none, some "Male", some "p.jpg"⟩ : AlertEvent)
          with age := none }
    ∧ (7 : ℤ) ≠ 0
    ∧ (log_face_event_row
        { (⟨1, "Lobby", "Alice", 1, 10, none, some "Male", some "p.jpg"⟩ : AlertEvent)
          with age := some 7 }).2.2.2.2.1 = some 7 :=
  ⟨(claim_C10_zero_age_null
      ⟨1, "Lobby", "Alice", 1, 10, none, some "Male", some "p.jpg"⟩).1,
    by decide,
    (claim_C10_zero_age_null
      ⟨1, "Lobby", "Alice", 1, 10, none, some "Male", some "p.jpg"⟩).2.2 7 (by decide)⟩

/-- Claim C9, counterexample: enrolling the same name twice
(`add_known_face` appends unconditionally, with no check against existing
entry names) leaves two gallery entries both named `"alice"`, refuting
the claimed name-uniqueness invariant. -/
theorem claim_C9_counterexample :
    ((add_known_face
        (add_known_face [] [⟨[], 1, some [1], none, none⟩] "alice" "faces" 5).1
        [⟨[], 1, some [1], none, none⟩] "alice" "faces" 9).1.map KnownFace.name)
      = ["alice", "alice"]
    ∧ ¬ ((add_known_face
        (add_known_face [] [⟨[], 1, some [1], none, none⟩] "alice" "faces" 5).1
        [⟨[], 1, some [1], none, none⟩] "alice" "faces" 9).1.map
          KnownFace.name).Nodup := by
  constructor
  · rfl
  · intro h
    have h2 : (["alice", "alice"] : List String).Nodup :=
      (show ((add_known_face
          (add_known_face [] [⟨[], 1, some [1], none, none⟩] "alice" "faces" 5).1
          [⟨[], 1, some [1], none, none⟩] "alice" "faces" 9).1.map
            KnownFace.name) = ["alice", "alice"] from rfl) ▸ h
    simp at h2

/-- The gallery names produced by a reload are a sublist of the stems of
the scanned files (one entry per accepted file, named by its stem). -/
theorem load_known_faces_names_sublist (files : List FaceFile) :
    ((load_known_faces files).map KnownFace.name).Sublist
      (files.map FaceFile.stem) := by
  induction files with
  | nil => simp [load_known_faces]
  | cons file rest ih =>
      by_cases hc : file.suffix.toLower ∈ [".jpg", ".jpeg", ".png"]
          ∧ file.img_ok = true
      · rcases hf : file.found with _ | ⟨e, es⟩ <;>
          simp only [load_known_faces, if_pos hc, hf, List.map_cons]
        · exact ih.cons _
        · exact ih.cons₂ _
      · simp only [load_known_faces, if_neg hc, List.map_cons]
        exact ih.cons _

/-- Claim C9, amended: the gallery operations do not themselves enforce
name uniqueness; names are unique only when the inputs are.  A wholesale
reload names entries by file stem, so the gallery names are unique
whenever the scanned files' stems are pairwise distinct (two files with
equal stems — e.g. `alice.jpg` and `alice.png` — or repeated enrollment of
one name produce duplicates); enrollment preserves uniqueness exactly when
the enrolled name is not already present. -/
theorem claim_C9_amended (files : List FaceFile) (kfs : List KnownFace)
    (detected : List Face) (name : String) (d : String) (t : ℤ)
    (hstems : (files.map FaceFile.stem).Nodup)
    (hkfs : (kfs.map KnownFace.name).Nodup)
    (hname : name ∉ kfs.map KnownFace.name) :
    ((load_known_faces files).map KnownFace.name).Nodup
    ∧ ((add_known_face kfs detected name d t).1.map KnownFace.name).Nodup := by
  constructor
  · exact (load_known_faces_names_sublist files).nodup hstems
  · cases detected with
    | nil => simpa [add_known_face] using hkfs
    | cons f fs =>
        simp [add_known_face, List.nodup_append]
        refine ⟨hkfs, ?_⟩
        intro x hx hxe
        exact hname (hxe ▸ List.mem_map_of_mem KnownFace.name hx)

/-- Claim C9, witness for the amended claim: distinct stems and a fresh
enrollment name keep the gallery names unique. -/
theorem claim_C9_amended_witness :
    ((([⟨"alice", ".jpg", "kf/alice.jpg", true, [[1]]⟩,
        ⟨"bob", ".png", "kf/bob.png", true, [[2]]⟩] : List FaceFile).map
          FaceFile.stem).Nodup
      ∧ (([] : List KnownFace).map KnownFace.name).Nodup
      ∧ "carol" ∉ ([] : List KnownFace).map KnownFace.name)
    ∧ (((load_known_faces
          [⟨"alice", ".jpg", "kf/alice.jpg", true, [[1]]⟩,
           ⟨"bob", ".png", "kf/bob.png", true, [[2]]⟩]).map KnownFace.name).Nodup
      ∧ ((add_known_face [] [] "carol" "d" 0).1.map KnownFace.name).Nodup) :=
  ⟨⟨by decide, by decide, by decide⟩,
    claim_C9_amended
      [⟨"alice", ".jpg", "kf/alice.jpg", true, [[1]]⟩,
       ⟨"bob", ".png", "kf/bob.png", true, [[2]]⟩]
      [] [] "carol" "d" 0 (by decide) (by decide) (by decide)⟩

end FaceTracker

namespace FaceTracker

/-- Only cameras that delivered a frame this tick can appear in the
processed list. -/
theorem updateTick_processed_subset (st : MainWindow) (now : ℤ)
    (frames : List ℕ) : ∀ c ∈ (updateTick st now frames).2.1, c ∈ frames := by
  induction frames generalizing st with
  | nil => simp [updateTick]
  | cons cam rest ih =>
      intro c hc
      by_cases h : now - (alookup st.last_processed cam).getD 0
          < st.processing_interval
      · simp only [updateTick] at hc
        rw [if_pos h] at hc
        exact List.mem_cons_of_mem _ (ih st c hc)
      · simp only [updateTick] at hc
        rw [if_neg h] at hc
        rcases List.mem_cons.mp hc with h1 | h2
        · exact h1 ▸ List.mem_cons_self _ _
        · exact List.mem_cons_of_mem _ (ih _ c h2)

/-- Claim C8: on a driver tick, each camera with an available frame is run
through detection exactly when the tick time minus its `last_processed`
entry (default `0`) is at least the processing interval; a frame inside
the interval is still displayed but not processed; `last_processed` is set
to the tick time exactly for the cameras where detection ran, all other
entries being left unchanged. -/
theorem claim_C8_processing_interval_gate (st : MainWindow) (now : ℤ)
    (frames : List ℕ) (hnd : frames.Nodup) :
    (∀ cam ∈ frames,
      (cam ∈ (updateTick st now frames).2.1 ↔
        st.processing_interval ≤ now - (alookup st.last_processed cam).getD 0)
      ∧ cam ∈ (updateTick st now frames).2.2
      ∧ alookup (updateTick st now frames).1.last_processed cam =
          (if st.processing_interval ≤
              now - (alookup st.last_processed cam).getD 0
            then some now else alookup st.last_processed cam))
    ∧ (∀ c, c ∉ frames →
        alookup (updateTick st now frames).1.last_processed c
          = alookup st.last_processed c) := by
  induction frames generalizing st with
  | nil =>
      refine ⟨?_, ?_⟩
      · intro cam hcam; simp at hcam
      · intro c _; simp [updateTick]
  | cons cam rest ih =>
      obtain ⟨hcm, hrnd⟩ := List.nodup_cons.mp hnd
      by_cases h : now - (alookup st.last_processed cam).getD 0
          < st.processing_interval
      · have hle : ¬ st.processing_interval ≤
            now - (alookup st.last_processed cam).getD 0 := by omega
        obtain ⟨ih1, ih2⟩ := ih st hrnd
        refine ⟨?_, ?_⟩
        · intro c hc
          simp only [updateTick]
          rw [if_pos h]
          rcases List.mem_cons.mp hc with rfl | hcr
          · refine ⟨?_, List.mem_cons_self _ _, ?_⟩
            · constructor
              · intro hmem
                exact absurd (updateTick_processed_subset st now rest c hmem) hcm
              · intro hge
                exact absurd hge hle
            · rw [if_neg hle]
              exact ih2 c hcm
          · obtain ⟨hi1, hi2, hi3⟩ := ih1 c hcr
            exact ⟨hi1, List.mem_cons_of_mem _ hi2, hi3⟩
        · intro c hcn
          simp only [updateTick]
          rw [if_pos h]
          exact ih2 c (fun hr => hcn (List.mem_cons_of_mem _ hr))
      · have hge : st.processing_interval ≤
            now - (alookup st.last_processed cam).getD 0 := by omega
        obtain ⟨ih1, ih2⟩ :=
          ih { st with last_processed := assocSet st.last_processed cam now } hrnd
        refine ⟨?_, ?_⟩
        · intro c hc
          simp only [updateTick]
          rw [if_neg h]
          rcases List.mem_cons.mp hc with rfl | hcr
          · refine ⟨?_, List.mem_cons_self _ _, ?_⟩
            · constructor
              · intro _; exact hge
              · intro _; exact List.mem_cons_self _ _
            · rw [if_pos hge, ih2 c hcm]
              exact alookup_assocSet_self st.last_processed c now
          · have hne : c ≠ cam := fun he => hcm (he ▸ hcr)
            obtain ⟨hi1, hi2, hi3⟩ := ih1 c hcr
            have hlp : alookup (assocSet st.last_processed cam now) c
                = alookup st.last_processed c :=
              alookup_assocSet_ne st.last_processed cam c now hne
            refine ⟨?_, List.mem_cons_of_mem _ hi2, ?_⟩
            · rw [List.mem_cons]
              constructor
              · intro hor
                rcases hor with he | hmem
                · exact absurd (he ▸ hcr) hcm
                · simpa [hlp] using hi1.mp hmem
              · intro hcond
                right
                apply hi1.mpr
                simpa [hlp] using hcond
            · simpa [hlp] using hi3
        · intro c hcn
          have hne : c ≠ cam := fun he => hcn (he ▸ List.mem_cons_self _ _)
          have hcr : c ∉ rest := fun hr => hcn (List.mem_cons_of_mem _ hr)
          simp only [updateTick]
          rw [if_neg h, ih2 c hcr]
          exact alookup_assocSet_ne st.last_processed cam c now hne

/-- Claim C8, witness: a two-camera tick at time 10 with interval 4, where
camera 1 was last processed at time 8 (inside the interval — displayed
only) and camera 2 never (processed). -/
theorem claim_C8_processing_interval_gate_witness :
    ([1, 2] : List ℕ).Nodup
    ∧ ((1 ∈ (updateTick ⟨[(1, 8)], 4⟩ 10 [1, 2]).2.1 ↔
          (4 : ℤ) ≤ 10 - (alookup [(1, (8 : ℤ))] 1).getD 0)
      ∧ 1 ∈ (updateTick ⟨[(1, 8)], 4⟩ 10 [1, 2]).2.2
      ∧ alookup (updateTick ⟨[(1, 8)], 4⟩ 10 [1, 2]).1.last_processed 1 =
          (if (4 : ℤ) ≤ 10 - (alookup [(1, (8 : ℤ))] 1).getD 0
            then some 10 else alookup [(1, (8 : ℤ))] 1)) :=
  ⟨by decide,
    (claim_C8_processing_interval_gate ⟨[(1, 8)], 4⟩ 10 [1, 2] (by decide)).1
      1 (by decide)⟩

end FaceTracker

namespace FaceTracker

theorem dot_self_nonneg (a : List ℝ) : 0 ≤ dot a a := by
  induction a with
  | nil => simp [dot]
  | cons x xs ih =>
      have h : dot (x :: xs) (x :: xs) = x * x + dot xs xs := by
        simp [dot]
      rw [h]
      exact add_nonneg (mul_self_nonneg x) ih

theorem norm2_pos (a : List ℝ) (ha : dot a a ≠ 0) : 0 < norm2 a :=
  Real.sqrt_pos.mpr (lt_of_le_of_ne (dot_self_nonneg a) (Ne.symm ha))

theorem cosSim_eq_cosVal (a b : List ℝ) (ha : dot a a ≠ 0) (hb : dot b b ≠ 0) :
    cosSim a b = some (cosVal a b) := by
  have h : norm2 a * norm2 b ≠ 0 :=
    ne_of_gt (mul_pos (norm2_pos a ha) (norm2_pos b hb))
  simp only [cosSim, cosVal, if_neg h]

theorem cosVal_self (a : List ℝ) (ha : dot a a ≠ 0) : cosVal a a = 1 := by
  simp only [cosVal, norm2]
  rw [Real.mul_self_sqrt (dot_self_nonneg a)]
  exact div_self ha

theorem dot_eq_sum (a b : List ℝ) (h : a.length = b.length) :
    dot a b = ∑ i ∈ Finset.range a.length, a.getD i 0 * b.getD i 0 := by
  induction a generalizing b with
  | nil => simp [dot]
  | cons x xs ih =>
      cases b with
      | nil => simp at h
      | cons y ys =>
          have hl : xs.length = ys.length := by simpa using h
          have hd : dot (x :: xs) (y :: ys) = x * y + dot xs ys := by
            simp [dot]
          rw [hd, ih ys hl, List.length_cons, Finset.sum_range_succ']
          simp only [List.getD_cons_succ, List.getD_cons_zero]
          ring

theorem dot_le_norm_mul_norm (a b : List ℝ) (h : a.length = b.length) :
    dot a b ≤ norm2 a * norm2 b := by
  have hcs : (dot a b) ^ 2 ≤ dot a a * dot b b := by
    have hmain := Finset.sum_mul_sq_le_sq_mul_sq (Finset.range a.length)
      (fun i => a.getD i 0) (fun i => b.getD i 0)
    calc (dot a b) ^ 2
        = (∑ i ∈ Finset.range a.length, a.getD i 0 * b.getD i 0) ^ 2 := by
          rw [dot_eq_sum a b h]
      _ ≤ (∑ i ∈ Finset.range a.length, a.getD i 0 ^ 2) *
            ∑ i ∈ Finset.range a.length, b.getD i 0 ^ 2 := hmain
      _ = dot a a * dot b b := by
          rw [dot_eq_sum a a rfl, dot_eq_sum b b rfl, ← h]
          simp [pow_two]
  have h1 : dot a b ≤ Real.sqrt ((dot a b) ^ 2) := by
    rw [Real.sqrt_sq_eq_abs]
    exact le_abs_self _
  have h2 : Real.sqrt ((dot a b) ^ 2) ≤ Real.sqrt (dot a a * dot b b) :=
    Real.sqrt_le_sqrt hcs
  have h3 : Real.sqrt (dot a a * dot b b) = norm2 a * norm2 b := by
    rw [norm2, norm2, ← Real.sqrt_mul (dot_self_nonneg a)]
  linarith

theorem cosVal_le_one (a b : List ℝ) (h : a.length = b.length)
    (ha : dot a a ≠ 0) (hb : dot b b ≠ 0) : cosVal a b ≤ 1 := by
  rw [cosVal, div_le_one (mul_pos (norm2_pos a ha) (norm2_pos b hb))]
  exact dot_le_norm_mul_norm a b h

theorem npArgmaxAux_spec (rest : List ℝ) (full : List ℝ) (best i : ℕ) (bv : ℝ)
    (hbest : best < full.length) (hbv : full.getD best 0 = bv)
    (hdrop : full.drop i = rest) :
    (npArgmaxAux (rest.map some) best i (some bv) < full.length
      ∧ bv ≤ full.getD (npArgmaxAux (rest.map some) best i (some bv)) 0)
    ∧ ∀ x ∈ rest, x ≤ full.getD (npArgmaxAux (rest.map some) best i (some bv)) 0 := by
  induction rest generalizing best i bv with
  | nil =>
      simp only [List.map_nil, npArgmaxAux]
      exact ⟨⟨hbest, le_of_eq hbv.symm⟩, by intro x hx; simp at hx⟩
  | cons v vs ih =>
      have hilt : i < full.length := by
        by_contra hle
        push_neg at hle
        rw [List.drop_eq_nil_iff.mpr hle] at hdrop
        simp at hdrop
      have hsplit := List.drop_eq_getElem_cons (l := full) (n := i) hilt
      rw [hdrop] at hsplit
      injection hsplit with hv hvs
      have hvD : full.getD i 0 = v := by
        rw [List.getD_eq_getElem?_getD, List.getElem?_eq_getElem hilt]
        simp [hv]
      have hdrop' : full.drop (i + 1) = vs := hvs.symm
      simp only [List.map_cons, npArgmaxAux]
      by_cases hlt : bv < v
      · have hup : npUpdate (some v) (some bv) := hlt
        rw [if_pos hup]
        obtain ⟨⟨r1, r2⟩, r3⟩ := ih i (i + 1) v hilt hvD hdrop'
        refine ⟨⟨r1, le_trans (le_of_lt hlt) r2⟩, ?_⟩
        intro x hx
        rcases List.mem_cons.mp hx with rfl | hxs
        · exact r2
        · exact r3 x hxs
      · have hup : ¬ npUpdate (some v) (some bv) := hlt
        rw [if_neg hup]
        obtain ⟨⟨r1, r2⟩, r3⟩ := ih best (i + 1) bv hbest hbv hdrop'
        refine ⟨⟨r1, r2⟩, ?_⟩
        intro x hx
        rcases List.mem_cons.mp hx with rfl | hxs
        · exact le_trans (not_lt.mp hlt) r2
        · exact r3 x hxs

end FaceTracker

namespace FaceTracker

theorem npArgmax_spec (l : List ℝ) (hne : l ≠ []) :
    npArgmax (l.map some) < l.length
    ∧ ∀ x ∈ l, x ≤ l.getD (npArgmax (l.map some)) 0 := by
  cases l with
  | nil => exact absurd rfl hne
  | cons v vs =>
      have h0 : npArgmax ((v :: vs).map some)
          = npArgmaxAux (vs.map some) 0 1 (some v) := by
        simp [npArgmax]
      obtain ⟨⟨r1, r2⟩, r3⟩ :=
        npArgmaxAux_spec vs (v :: vs) 0 1 v (by simp) rfl rfl
      rw [h0]
      refine ⟨r1, ?_⟩
      intro x hx
      rcases List.mem_cons.mp hx with rfl | hxs
      · exact r2
      · exact r3 x hxs

theorem npArgmaxAux_all_none (rest : List (Option ℝ)) (best i : ℕ)
    (hall : ∀ v ∈ rest, v = none) : npArgmaxAux rest best i none = best := by
  induction rest generalizing best i with
  | nil => simp [npArgmaxAux]
  | cons v vs ih =>
      have hv : v = none := hall v (List.mem_cons_self _ _)
      subst hv
      have hup : ¬ npUpdate none none := by simp [npUpdate]
      simp only [npArgmaxAux]
      rw [if_neg hup]
      exact ih best (i + 1) (fun w hw => hall w (List.mem_cons_of_mem _ hw))

theorem getD_map_of_lt {α β : Type} (f : α → β) (l : List α) (i : ℕ) (d : β)
    (d' : α) (h : i < l.length) : (l.map f).getD i d = f (l.getD i d') := by
  rw [List.getD_eq_getElem?_getD, List.getD_eq_getElem?_getD,
    List.getElem?_map, List.getElem?_eq_getElem h]
  rfl

end FaceTracker

namespace FaceTracker

set_option maxHeartbeats 1600000 in
open Classical in
/-- Claim C3, amended: for a nonempty gallery and a nondegenerate detected
embedding (the no-NaN regime: nonzero embeddings of matching lengths,
which is how the 512-dimensional detector embeddings always arrive),
`recognize_faces` selects the gallery candidate of maximum cosine
similarity and accepts exactly when that maximum **strictly** exceeds the
threshold, otherwise reporting unmatched with the maximum similarity still
returned.  In particular, for a gallery containing the detected embedding
itself the maximum similarity is exactly 1 and the match is accepted
whenever threshold `< 1.0` (at threshold `= 1.0` the strict comparison
rejects it — the corrected form of the claim's "≤ 1.0"). -/
theorem claim_C3_amended (kfs : List KnownFace) (θ : ℝ) (face : Face)
    (emb : List ℝ) (hemb : face.embedding = some emb) (hkfs : kfs ≠ [])
    (hfz : dot emb emb ≠ 0)
    (hnz : ∀ kf ∈ kfs, dot kf.embedding kf.embedding ≠ 0)
    (hlen : ∀ kf ∈ kfs, kf.embedding.length = emb.length) :
    ∃ i : ℕ, i < kfs.length
      ∧ (recognizeOne kfs θ face).2.2
          = some (cosVal (kfs.getD i dfltKnown).embedding emb)
      ∧ (∀ kf ∈ kfs, cosVal kf.embedding emb
          ≤ cosVal (kfs.getD i dfltKnown).embedding emb)
      ∧ (θ < cosVal (kfs.getD i dfltKnown).embedding emb →
          (recognizeOne kfs θ face).2.1 = some (kfs.getD i dfltKnown))
      ∧ (¬ θ < cosVal (kfs.getD i dfltKnown).embedding emb →
          (recognizeOne kfs θ face).2.1 = none)
      ∧ (emb ∈ kfs.map KnownFace.embedding → θ < 1 →
          (recognizeOne kfs θ face).2.2 = some 1
          ∧ ∃ kf, (recognizeOne kfs θ face).2.1 = some kf
              ∧ cosVal kf.embedding emb = 1) := by
  have hembne : emb ≠ [] := by
    intro he
    subst he
    exact hfz (by simp [dot])
  have hlen0 : ¬ emb.length = 0 := fun h => hembne (List.length_eq_zero.mp h)
  have hsims : kfs.map (fun kf => cosSim kf.embedding emb)
      = (kfs.map (fun kf => cosVal kf.embedding emb)).map some := by
    rw [List.map_map]
    exact List.map_congr_left
      (fun kf hkf => cosSim_eq_cosVal _ _ (hnz kf hkf) hfz)
  have hrne : kfs.map (fun kf => cosVal kf.embedding emb) ≠ [] := by
    intro h
    exact hkfs (List.map_eq_nil_iff.mp h)
  obtain ⟨hidx, hmax⟩ :=
    npArgmax_spec (kfs.map (fun kf => cosVal kf.embedding emb)) hrne
  have hidxk :
      npArgmax ((kfs.map (fun kf => cosVal kf.embedding emb)).map some)
        < kfs.length := by
    rw [List.length_map] at hidx
    exact hidx
  have hvv : (kfs.map (fun kf => cosVal kf.embedding emb)).getD
        (npArgmax ((kfs.map (fun kf => cosVal kf.embedding emb)).map some)) 0
      = cosVal (kfs.getD
          (npArgmax ((kfs.map (fun kf => cosVal kf.embedding emb)).map some))
          dfltKnown).embedding emb :=
    getD_map_of_lt _ kfs _ 0 dfltKnown hidxk
  have hrecA : θ < cosVal (kfs.getD
        (npArgmax ((kfs.map (fun kf => cosVal kf.embedding emb)).map some))
        dfltKnown).embedding emb →
      recognizeOne kfs θ face
        = (face, some (kfs.getD
            (npArgmax ((kfs.map (fun kf => cosVal kf.embedding emb)).map some))
            dfltKnown),
          some (cosVal (kfs.getD
            (npArgmax ((kfs.map (fun kf => cosVal kf.embedding emb)).map some))
            dfltKnown).embedding emb)) := by
    intro hgt
    simp only [recognizeOne, hemb]
    rw [if_neg hlen0, hsims,
      getD_map_of_lt some (kfs.map (fun kf => cosVal kf.embedding emb)) _ none 0 hidx,
      hvv, if_pos (show npGT (some (cosVal (kfs.getD
        (npArgmax ((kfs.map (fun kf => cosVal kf.embedding emb)).map some))
        dfltKnown).embedding emb)) θ from hgt)]
  have hrecB : ¬ θ < cosVal (kfs.getD
        (npArgmax ((kfs.map (fun kf => cosVal kf.embedding emb)).map some))
        dfltKnown).embedding emb →
      recognizeOne kfs θ face
        = (face, none,
          some (cosVal (kfs.getD
            (npArgmax ((kfs.map (fun kf => cosVal kf.embedding emb)).map some))
            dfltKnown).embedding emb)) := by
    intro hgt
    simp only [recognizeOne, hemb]
    rw [if_neg hlen0, hsims,
      getD_map_of_lt some (kfs.map (fun kf => cosVal kf.embedding emb)) _ none 0 hidx,
      hvv, if_neg (show ¬ npGT (some (cosVal (kfs.getD
        (npArgmax ((kfs.map (fun kf => cosVal kf.embedding emb)).map some))
        dfltKnown).embedding emb)) θ from hgt)]
  have hmax' : ∀ kf ∈ kfs, cosVal kf.embedding emb
      ≤ cosVal (kfs.getD
          (npArgmax ((kfs.map (fun kf => cosVal kf.embedding emb)).map some))
          dfltKnown).embedding emb := by
    intro kf hkf
    have h := hmax (cosVal kf.embedding emb)
      (List.mem_map_of_mem (fun kf => cosVal kf.embedding emb) hkf)
    rw [hvv] at h
    exact h
  refine ⟨npArgmax ((kfs.map (fun kf => cosVal kf.embedding emb)).map some),
    ?_, ?_, ?_, ?_, ?_, ?_⟩
  · exact hidxk
  · by_cases hgt : θ < cosVal (kfs.getD
        (npArgmax ((kfs.map (fun kf => cosVal kf.embedding emb)).map some))
        dfltKnown).embedding emb
    · rw [hrecA hgt]
    · rw [hrecB hgt]
  · exact hmax'
  · intro hgt
    rw [hrecA hgt]
  · intro hgt
    rw [hrecB hgt]
  · intro hm hθ
    obtain ⟨kf0, hkf0, hkf0e⟩ := List.mem_map.mp hm
    have h1 : cosVal kf0.embedding emb = 1 := by
      rw [hkf0e]
      exact cosVal_self emb hfz
    have hKmem : kfs.getD
        (npArgmax ((kfs.map (fun kf => cosVal kf.embedding emb)).map some))
        dfltKnown ∈ kfs := by
      rw [List.getD_eq_getElem?_getD, List.getElem?_eq_getElem hidxk]
      simp
    have hVle : cosVal (kfs.getD
        (npArgmax ((kfs.map (fun kf => cosVal kf.embedding emb)).map some))
        dfltKnown).embedding emb ≤ 1 :=
      cosVal_le_one _ emb (hlen _ hKmem) (hnz _ hKmem) hfz
    have hge1 : (1 : ℝ) ≤ cosVal (kfs.getD
        (npArgmax ((kfs.map (fun kf => cosVal kf.embedding emb)).map some))
        dfltKnown).embedding emb := by
      have h2 := hmax' kf0 hkf0
      rw [h1] at h2
      exact h2
    have hV1 : cosVal (kfs.getD
        (npArgmax ((kfs.map (fun kf => cosVal kf.embedding emb)).map some))
        dfltKnown).embedding emb = 1 := le_antisymm hVle hge1
    have hgt : θ < cosVal (kfs.getD
        (npArgmax ((kfs.map (fun kf => cosVal kf.embedding emb)).map some))
        dfltKnown).embedding emb := by
      rw [hV1]
      exact hθ
    constructor
    · rw [hrecA hgt, hV1]
    · refine ⟨kfs.getD
        (npArgmax ((kfs.map (fun kf => cosVal kf.embedding emb)).map some))
        dfltKnown, ?_, ?_⟩
      · rw [hrecA hgt]
      · exact hV1

end FaceTracker

namespace FaceTracker

/-- Claim C3, counterexample: with the gallery containing exactly the
detected embedding `[1]` and threshold `= 1.0` (so threshold `≤ 1.0`
holds), the maximum similarity is exactly `1` but the strict comparison
`max_similarity > threshold` fails, so `recognize_faces` reports the
detection **unmatched** — refuting "match returns that entry whenever
threshold ≤ 1.0". -/
theorem claim_C3_counterexample :
    (recognizeOne [⟨"alice", [1], "p"⟩] 1 ⟨[], 1, some [1], none, none⟩).2.1
      = none
    ∧ (recognizeOne [⟨"alice", [1], "p"⟩] 1 ⟨[], 1, some [1], none, none⟩).2.2
      = some 1
    ∧ ((1 : ℝ) ≤ 1) := by
  have hds : dot [1] [1] = 1 := by norm_num [dot]
  have hn : norm2 [1] = 1 := by rw [norm2, hds, Real.sqrt_one]
  have hcs : cosSim [1] [1] = some 1 := by
    rw [cosSim, if_neg (by rw [hn]; norm_num), hn, hds]
    norm_num
  have harg : npArgmax [some (1 : ℝ)] = 0 := by
    simp [npArgmax, npArgmaxAux]
  have hrec : recognizeOne [⟨"alice", [1], "p"⟩] 1 ⟨[], 1, some [1], none, none⟩
      = (⟨[], 1, some [1], none, none⟩, none, some 1) := by
    simp only [recognizeOne]
    rw [if_neg (by norm_num : ¬ ([1] : List ℝ).length = 0)]
    simp only [List.map_cons, List.map_nil]
    rw [if_neg (show ¬ npGT ([cosSim [1] [1]].getD (npArgmax [cosSim [1] [1]]) none) 1 from by
      rw [hcs, harg]
      simp [npGT])]
    simp only [hcs, harg, List.getD_cons_zero]
  exact ⟨by rw [hrec], by rw [hrec], le_refl 1⟩

/-- Claim C3, witness for the amended claim: a singleton gallery holding
the detected embedding `[2]` with threshold `1/2 < 1` is accepted with
similarity exactly `1`. -/
theorem claim_C3_amended_witness :
    ((⟨[], 1, some [2], none, none⟩ : Face).embedding = some [2]
      ∧ ([⟨"alice", [2], "p"⟩] : List KnownFace) ≠ []
      ∧ dot [2] [2] ≠ 0
      ∧ (∀ kf ∈ ([⟨"alice", [2], "p"⟩] : List KnownFace),
          dot kf.embedding kf.embedding ≠ 0)
      ∧ (∀ kf ∈ ([⟨"alice", [2], "p"⟩] : List KnownFace),
          kf.embedding.length = ([2] : List ℝ).length))
    ∧ ∃ i : ℕ, i < ([⟨"alice", [2], "p"⟩] : List KnownFace).length
      ∧ (recognizeOne [⟨"alice", [2], "p"⟩] (1/2) ⟨[], 1, some [2], none, none⟩).2.2
          = some (cosVal (([⟨"alice", [2], "p"⟩] : List KnownFace).getD i
              dfltKnown).embedding [2])
      ∧ (∀ kf ∈ ([⟨"alice", [2], "p"⟩] : List KnownFace),
          cosVal kf.embedding [2]
            ≤ cosVal (([⟨"alice", [2], "p"⟩] : List KnownFace).getD i
                dfltKnown).embedding [2])
      ∧ ((1 / 2 : ℝ) < cosVal (([⟨"alice", [2], "p"⟩] : List KnownFace).getD i
            dfltKnown).embedding [2] →
          (recognizeOne [⟨"alice", [2], "p"⟩] (1/2) ⟨[], 1, some [2], none, none⟩).2.1
            = some (([⟨"alice", [2], "p"⟩] : List KnownFace).getD i dfltKnown))
      ∧ (¬ (1 / 2 : ℝ) < cosVal (([⟨"alice", [2], "p"⟩] : List KnownFace).getD i
            dfltKnown).embedding [2] →
          (recognizeOne [⟨"alice", [2], "p"⟩] (1/2) ⟨[], 1, some [2], none, none⟩).2.1
            = none)
      ∧ (([2] : List ℝ) ∈ ([⟨"alice", [2], "p"⟩] : List KnownFace).map
            KnownFace.embedding → (1 / 2 : ℝ) < 1 →
          (recognizeOne [⟨"alice", [2], "p"⟩] (1/2) ⟨[], 1, some [2], none, none⟩).2.2
            = some 1
          ∧ ∃ kf, (recognizeOne [⟨"alice", [2], "p"⟩] (1/2)
                ⟨[], 1, some [2], none, none⟩).2.1 = some kf
              ∧ cosVal kf.embedding [2] = 1) :=
  ⟨⟨rfl, by simp, by norm_num [dot], by
      intro kf hkf
      simp at hkf
      subst hkf
      norm_num [dot], by
      intro kf hkf
      simp at hkf
      subst hkf
      rfl⟩,
    claim_C3_amended [⟨"alice", [2], "p"⟩] (1/2) ⟨[], 1, some [2], none, none⟩
      [2] rfl (by simp) (by norm_num [dot])
      (by
        intro kf hkf
        simp at hkf
        subst hkf
        norm_num [dot])
      (by
        intro kf hkf
        simp at hkf
        subst hkf
        rfl)⟩

end FaceTracker

namespace FaceTracker

/-- Claim C4, amended: a missing (`None`) or empty embedding is guarded —
no similarity is computed and the detection is reported unmatched with
similarity exactly `0.0` — but a non-empty all-zero embedding is **not**
guarded: the similarity division is evaluated with a zero denominator,
numpy produces `0.0/0.0 = NaN` quotients (no fault is raised), and the
detection is reported unmatched with similarity NaN, not `0.0`. -/
theorem claim_C4_amended (kfs : List KnownFace) (θ : ℝ) (face : Face) :
    (face.embedding = none → recognizeOne kfs θ face = (face, none, some 0))
    ∧ (face.embedding = some [] → recognizeOne kfs θ face = (face, none, some 0))
    ∧ (∀ emb, face.embedding = some emb → emb ≠ [] → dot emb emb = 0 →
        kfs ≠ [] → (∀ kf ∈ kfs, kf.embedding.length = emb.length) →
        (recognizeOne kfs θ face).2.1 = none
        ∧ (recognizeOne kfs θ face).2.2 = none) := by
  refine ⟨?_, ?_, ?_⟩
  · intro h
    simp [recognizeOne, h]
  · intro h
    simp [recognizeOne, h]
  · intro emb hemb hne hdz hkne _
    have hsimnone : ∀ kf ∈ kfs, cosSim kf.embedding emb = none := by
      intro kf _
      have h0 : norm2 kf.embedding * norm2 emb = 0 := by
        have he : norm2 emb = 0 := by rw [norm2, hdz, Real.sqrt_zero]
        rw [he, mul_zero]
      simp only [cosSim, if_pos h0]
    rcases kfs with _ | ⟨k, ks⟩
    · exact absurd rfl hkne
    · have hk0 : cosSim k.embedding emb = none :=
        hsimnone k (List.mem_cons_self _ _)
      have hks : ks.map (fun kf => cosSim kf.embedding emb)
          = ks.map (fun _ => (none : Option ℝ)) :=
        List.map_congr_left
          (fun kf hkf => hsimnone kf (List.mem_cons_of_mem _ hkf))
      have harg : npArgmax (cosSim k.embedding emb ::
          ks.map (fun kf => cosSim kf.embedding emb)) = 0 := by
        rw [hk0, hks]
        simp only [npArgmax, List.headD_cons, List.tail_cons]
        refine npArgmaxAux_all_none _ 0 1 ?_
        intro v hv
        rcases List.mem_map.mp hv with ⟨a, _, he⟩
        exact he.symm
      have hrec : recognizeOne (k :: ks) θ face = (face, none, none) := by
        simp only [recognizeOne, hemb]
        rw [if_neg (fun h => hne (List.length_eq_zero.mp h))]
        simp only [List.map_cons]
        rw [if_neg (show ¬ npGT ((cosSim k.embedding emb ::
            ks.map (fun kf => cosSim kf.embedding emb)).getD
              (npArgmax (cosSim k.embedding emb ::
                ks.map (fun kf => cosSim kf.embedding emb))) none) θ from by
          rw [harg, List.getD_cons_zero, hk0]
          simp [npGT])]
        rw [harg, List.getD_cons_zero, hk0]
      exact ⟨by rw [hrec], by rw [hrec]⟩

/-- Claim C4, counterexample: the zero-vector embedding `[0]` passes the
`None`/empty guard, the cosine-similarity division is reached with a zero
denominator (`‖[1]‖ · ‖[0]‖ = 0`), and the detection is reported
unmatched with similarity NaN — **not** `0.0` — refuting the claim that a
zero-vector embedding yields similarity exactly `0.0` with no undefined
quotient. -/
theorem claim_C4_counterexample :
    (recognizeOne [⟨"alice", [1], "p"⟩] (1/2) ⟨[], 1, some [0], none, none⟩).2.2
      = none
    ∧ (recognizeOne [⟨"alice", [1], "p"⟩] (1/2) ⟨[], 1, some [0], none, none⟩).2.2
      ≠ some 0
    ∧ norm2 [1] * norm2 [(0 : ℝ)] = 0 := by
  have hd0 : dot [(0 : ℝ)] [0] = 0 := by norm_num [dot]
  have hn0 : norm2 [(0 : ℝ)] = 0 := by rw [norm2, hd0, Real.sqrt_zero]
  have hcs : cosSim [1] [(0 : ℝ)] = none := by
    simp only [cosSim]
    rw [if_pos (by rw [hn0, mul_zero])]
  have harg : npArgmax [(none : Option ℝ)] = 0 := by
    simp [npArgmax, npArgmaxAux]
  have hrec : recognizeOne [⟨"alice", [1], "p"⟩] (1/2)
      ⟨[], 1, some [0], none, none⟩
      = (⟨[], 1, some [0], none, none⟩, none, none) := by
    simp only [recognizeOne]
    rw [if_neg (by norm_num : ¬ ([0] : List ℝ).length = 0)]
    simp only [List.map_cons, List.map_nil]
    rw [if_neg (show ¬ npGT ([cosSim [1] [0]].getD
        (npArgmax [cosSim [1] [0]]) none) (1/2) from by
      rw [hcs, harg]
      simp [npGT])]
    simp only [hcs, harg, List.getD_cons_zero]
  refine ⟨by rw [hrec], by rw [hrec]; simp, by rw [hn0, mul_zero]⟩

/-- Claim C4, witness for the amended claim at the zero vector `[0]`
against a singleton gallery. -/
theorem claim_C4_amended_witness :
    ((⟨[], 1, some [0], none, none⟩ : Face).embedding = some [(0 : ℝ)]
      ∧ ([(0 : ℝ)] ≠ [])
      ∧ dot [(0 : ℝ)] [0] = 0
      ∧ ([⟨"alice", [1], "p"⟩] : List KnownFace) ≠ [])
    ∧ ((recognizeOne [⟨"alice", [1], "p"⟩] (1/2)
          ⟨[], 1, some [0], none, none⟩).2.1 = none
      ∧ (recognizeOne [⟨"alice", [1], "p"⟩] (1/2)
          ⟨[], 1, some [0], none, none⟩).2.2 = none) :=
  ⟨⟨rfl, by simp, by norm_num [dot], by simp⟩,
    (claim_C4_amended [⟨"alice", [1], "p"⟩] (1/2)
        ⟨[], 1, some [0], none, none⟩).2.2
      [0] rfl (by simp) (by norm_num [dot]) (by simp)
      (by
        intro kf hkf
        simp at hkf
        subst hkf
        rfl)⟩

end FaceTracker
